import Mathlib

/-!
Verification of the save/export orchestration core of `src/gimp3/saver.py`
(a GIMP 3 Python plug-in).  The Python code is shallowly embedded:

* Python `int` is `Int`, Python `float` is modelled as `ℚ` (all arithmetic
  the plug-in performs on floats — products, quotients and `%d` truncation
  of small screen-sized quantities — is exact in double precision, so the
  rational model is faithful on the domain the program uses);
* Python strings are `String`, manipulated through their `List Char` data;
* the host (GIMP) API is an oracle: the two `gimp-file-save` calls receive
  their `Gimp.PDBStatusType` results as parameters of the model;
* statements that reference names undefined at runtime (`pdb`, `img`,
  `copyimage`, `CLIP_TO_IMAGE`, `gimp`) are modelled as raising `NameError`
  at the corresponding program point, exactly as CPython would;
* side effects on the image are explicit state (`Doc`), and the calls into
  the host API are recorded in an event trace.
-/

namespace Saver

/-! ### Decimal digits: rendering and parsing

`intToStrL` models CPython's `str`/`'%d'` rendering of an `int`;
`pyIntParseL` / `pyFloatParseL` model `int(s)` / `float(s)` with CPython's
acceptance grammar on ASCII strings: optional surrounding whitespace, an
optional sign, underscore-grouped decimal digits, and for `float()` an
optional fraction, an optional exponent and the case-insensitive
`inf`/`infinity`/`nan` literals.  (CPython additionally accepts non-ASCII
Unicode digit and whitespace characters, which cannot occur in this
plug-in's data.)  Accepted finite values are kept as exact rationals, per
the file-wide float model: the double rounding of values that are not
exactly representable, and the overflow-to-infinity/underflow-to-zero of
magnitudes beyond 1e308/1e-308, are idealized away — every quantity this
plug-in handles is far inside that range. -/

def digitChar (n : Nat) : Char := Char.ofNat (48 + n)

def charVal (c : Char) : Nat := c.toNat - 48

def digitsVal (cs : List Char) : Nat := cs.foldl (fun a c => a * 10 + charVal c) 0

def natDigitsAux : Nat → Nat → List Char
  | 0, _ => []
  | fuel + 1, n =>
    if n < 10 then [digitChar n] else natDigitsAux fuel (n / 10) ++ [digitChar (n % 10)]

def natToStrL (n : Nat) : List Char := natDigitsAux (n + 1) n

def intToStrL (n : Int) : List Char :=
  if n < 0 then '-' :: natToStrL n.natAbs else natToStrL n.natAbs

/-- The characters CPython's number parsers strip from both ends: the
`str.isspace` characters in the ASCII plane (TAB through CR, the four
information separators, and the space). -/
def isPySpace (c : Char) : Bool :=
  (9 ≤ c.toNat ∧ c.toNat ≤ 13) ∨ (28 ≤ c.toNat ∧ c.toNat ≤ 32)

def stripPySpace (cs : List Char) : List Char :=
  ((cs.dropWhile isPySpace).reverse.dropWhile isPySpace).reverse

/-- A run of decimal digits with optional single underscores *between*
digits (PEP 515), as accepted inside CPython numeric literals; returns the
value and the number of digits (underscores excluded). -/
def parseUDigitsAux : Nat → Nat → List Char → Option (Nat × Nat)
  | acc, cnt, [] => some (acc, cnt)
  | acc, cnt, c :: rest =>
    if c.isDigit then parseUDigitsAux (acc * 10 + charVal c) (cnt + 1) rest
    else if c = '_' then
      match rest with
      | [] => none
      | d :: rest2 =>
        if d.isDigit then parseUDigitsAux (acc * 10 + charVal d) (cnt + 1) rest2 else none
    else none

def parseUDigits (cs : List Char) : Option (Nat × Nat) :=
  match cs with
  | [] => none
  | c :: rest => if c.isDigit then parseUDigitsAux (charVal c) 1 rest else none

/-- CPython `int(s)` (base 10) on ASCII strings: strip whitespace, an
optional sign, then an underscore-grouped digit run. -/
def pyIntParseL (cs : List Char) : Option Int :=
  match stripPySpace cs with
  | [] => none
  | c :: rest =>
    if c = '-' then (parseUDigits rest).map (fun v => -((v.1 : Int)))
    else if c = '+' then (parseUDigits rest).map (fun v => ((v.1 : Int)))
    else (parseUDigits (c :: rest)).map (fun v => ((v.1 : Int)))

lemma charVal_digitChar {n : Nat} (h : n < 10) : charVal (digitChar n) = n := by
  interval_cases n <;> decide

lemma isDigit_digitChar {n : Nat} (h : n < 10) : (digitChar n).isDigit = true := by
  interval_cases n <;> decide

lemma ne_of_isDigit {c : Char} (h : c.isDigit = true) : c ≠ '-' ∧ c ≠ '+' := by
  constructor <;> rintro rfl <;> simp at h

lemma digitsVal_concat (xs : List Char) (c : Char) :
    digitsVal (xs ++ [c]) = digitsVal xs * 10 + charVal c := by
  simp [digitsVal]

lemma natDigitsAux_val : ∀ fuel n, n < fuel → digitsVal (natDigitsAux fuel n) = n := by
  intro fuel
  induction fuel with
  | zero => intro n h; omega
  | succ fuel ih =>
    intro n h
    by_cases h10 : n < 10
    · simp only [natDigitsAux, if_pos h10]
      simpa [digitsVal] using charVal_digitChar h10
    · have hlt : n / 10 < fuel := by
        have : n / 10 < n := Nat.div_lt_self (by omega) (by omega)
        omega
      have hm : n % 10 < 10 := Nat.mod_lt _ (by omega)
      simp only [natDigitsAux, if_neg h10]
      rw [digitsVal_concat, ih _ hlt, charVal_digitChar hm]
      omega

lemma natDigitsAux_all_digits : ∀ fuel n, (natDigitsAux fuel n).all Char.isDigit = true := by
  intro fuel
  induction fuel with
  | zero => intro n; rfl
  | succ fuel ih =>
    intro n
    by_cases h10 : n < 10
    · simp only [natDigitsAux, if_pos h10, List.all_cons, List.all_nil,
        isDigit_digitChar h10, Bool.and_self]
    · have hm : n % 10 < 10 := Nat.mod_lt _ (by omega)
      simp only [natDigitsAux, if_neg h10, List.all_append, ih, List.all_cons, List.all_nil,
        isDigit_digitChar hm, Bool.and_self]

lemma natDigitsAux_ne_nil (fuel n : Nat) (h : 0 < fuel) : natDigitsAux fuel n ≠ [] := by
  cases fuel with
  | zero => omega
  | succ fuel =>
    by_cases h10 : n < 10
    · simp [natDigitsAux, h10]
    · simp only [natDigitsAux, if_neg h10]
      intro hc
      exact absurd (List.append_eq_nil.mp hc).2 (by simp)

lemma natToStrL_val (n : Nat) : digitsVal (natToStrL n) = n :=
  natDigitsAux_val (n + 1) n (Nat.lt_succ_self n)

lemma natToStrL_all_digits (n : Nat) : (natToStrL n).all Char.isDigit = true :=
  natDigitsAux_all_digits (n + 1) n

lemma natToStrL_ne_nil (n : Nat) : natToStrL n ≠ [] :=
  natDigitsAux_ne_nil (n + 1) n (Nat.succ_pos n)

lemma not_isPySpace_of_isDigit {c : Char} (h : c.isDigit = true) : isPySpace c = false := by
  simp [Char.isDigit] at h
  obtain ⟨h1, h2⟩ := h
  have ha : 48 ≤ c.val.toNat := UInt32.le_toNat_of_le (by norm_num [UInt32.size]) h1
  have hb : c.val.toNat ≤ 57 := UInt32.toNat_le_of_le (by norm_num [UInt32.size]) h2
  have hc : c.toNat = c.val.toNat := rfl
  simp only [isPySpace, hc, decide_eq_false_iff_not]
  omega

lemma dropWhile_eq_self_of {p : Char → Bool} {cs : List Char}
    (h : ∀ c ∈ cs, p c = false) : cs.dropWhile p = cs := by
  cases cs with
  | nil => rfl
  | cons c t =>
    rw [List.dropWhile_cons, if_neg (by simp [h c (List.mem_cons_self c t)])]

lemma stripPySpace_eq_self {cs : List Char} (h : ∀ c ∈ cs, isPySpace c = false) :
    stripPySpace cs = cs := by
  rw [stripPySpace, dropWhile_eq_self_of h,
    dropWhile_eq_self_of (fun c hc => h c (List.mem_reverse.mp hc)), List.reverse_reverse]

lemma stripPySpace_digits {cs : List Char} (hdig : cs.all Char.isDigit = true) :
    stripPySpace cs = cs :=
  stripPySpace_eq_self (fun c hc => not_isPySpace_of_isDigit (List.all_eq_true.mp hdig c hc))

lemma parseUDigitsAux_all_digits : ∀ (cs : List Char) (acc cnt : Nat),
    cs.all Char.isDigit = true →
    parseUDigitsAux acc cnt cs
      = some (cs.foldl (fun a c => a * 10 + charVal c) acc, cnt + cs.length) := by
  intro cs
  induction cs with
  | nil =>
    intro acc cnt _
    rfl
  | cons c t ih =>
    intro acc cnt hdig
    simp only [List.all_cons, Bool.and_eq_true] at hdig
    rw [parseUDigitsAux.eq_def]
    simp only [if_pos hdig.1]
    rw [ih _ _ hdig.2]
    simp only [List.foldl_cons, List.length_cons, Option.some.injEq, Prod.mk.injEq]
    exact ⟨trivial, by omega⟩

lemma parseUDigits_all_digits {cs : List Char} (hne : cs ≠ [])
    (hdig : cs.all Char.isDigit = true) :
    parseUDigits cs = some (digitsVal cs, cs.length) := by
  cases cs with
  | nil => exact absurd rfl hne
  | cons c t =>
    have hdig2 := hdig
    simp only [List.all_cons, Bool.and_eq_true] at hdig2
    simp only [parseUDigits, if_pos hdig2.1]
    rw [parseUDigitsAux_all_digits t (charVal c) 1 hdig2.2]
    simp only [digitsVal, List.foldl_cons, List.length_cons, Option.some.injEq, Prod.mk.injEq]
    constructor
    · congr 1
      omega
    · omega

lemma pyIntParseL_all_digits {cs : List Char} (hne : cs ≠ [])
    (hdig : cs.all Char.isDigit = true) : pyIntParseL cs = some ((digitsVal cs : Int)) := by
  cases cs with
  | nil => exact absurd rfl hne
  | cons c t =>
    have hc : c.isDigit = true := by
      have h2 := hdig
      simp only [List.all_cons, Bool.and_eq_true] at h2
      exact h2.1
    obtain ⟨h1, h2⟩ := ne_of_isDigit hc
    simp only [pyIntParseL, stripPySpace_digits hdig, if_neg h1, if_neg h2,
      parseUDigits_all_digits (by simp) hdig, Option.map_some']

lemma pyIntParseL_natToStrL (n : Nat) : pyIntParseL (natToStrL n) = some ((n : Int)) := by
  rw [pyIntParseL_all_digits (natToStrL_ne_nil n) (natToStrL_all_digits n), natToStrL_val]

lemma stripPySpace_neg_digits (n : Nat) :
    stripPySpace ('-' :: natToStrL n) = '-' :: natToStrL n := by
  refine stripPySpace_eq_self (fun c hc => ?_)
  rcases List.mem_cons.mp hc with rfl | hc2
  · decide
  · exact not_isPySpace_of_isDigit (List.all_eq_true.mp (natToStrL_all_digits n) c hc2)

lemma pyIntParseL_intToStrL (n : Int) : pyIntParseL (intToStrL n) = some n := by
  by_cases h : n < 0
  · rw [intToStrL, if_pos h]
    simp only [pyIntParseL, stripPySpace_neg_digits, if_pos,
      parseUDigits_all_digits (natToStrL_ne_nil n.natAbs) (natToStrL_all_digits n.natAbs),
      Option.map_some', natToStrL_val]
    congr 1
    omega
  · rw [intToStrL, if_neg h, pyIntParseL_natToStrL]
    congr 1
    omega

/-! ### Splitting, float parsing, `%d` truncation -/

def splitOnChar (sep : Char) : List Char → List (List Char)
  | [] => [[]]
  | c :: rest =>
    if c = sep then [] :: splitOnChar sep rest
    else
      match splitOnChar sep rest with
      | [] => [[c]]
      | g :: gs => (c :: g) :: gs

lemma splitOnChar_not_mem {sep : Char} {cs : List Char} (h : sep ∉ cs) :
    splitOnChar sep cs = [cs] := by
  induction cs with
  | nil => rfl
  | cons c rest ih =>
    have hc : ¬ c = sep := fun hcc => h (hcc ▸ List.mem_cons_self c rest)
    have hrest : sep ∉ rest := fun hm => h (List.mem_cons_of_mem c hm)
    simp only [splitOnChar, if_neg hc, ih hrest]

lemma splitOnChar_append {sep : Char} {a : List Char} (rest : List Char) (h : sep ∉ a) :
    splitOnChar sep (a ++ sep :: rest) = a :: splitOnChar sep rest := by
  induction a with
  | nil => simp [splitOnChar]
  | cons c t ih =>
    have hc : ¬ c = sep := fun hcc => h (hcc ▸ List.mem_cons_self c t)
    have ht : sep ∉ t := fun hm => h (List.mem_cons_of_mem c hm)
    simp only [List.cons_append, splitOnChar, if_neg hc, List.append_eq]
    rw [ih ht]

/-- A CPython float value as the plug-in can observe one. -/
inductive PyFloat where
  | finite (q : ℚ)
  | posInf
  | negInf
  | nan
  deriving DecidableEq, Repr

/-- Unary minus on a parsed float (the sign in front of a literal). -/
def pyNegF : PyFloat → PyFloat
  | PyFloat.finite q => PyFloat.finite (-q)
  | PyFloat.posInf => PyFloat.negInf
  | PyFloat.negInf => PyFloat.posInf
  | PyFloat.nan => PyFloat.nan

def lowerL (cs : List Char) : List Char := cs.map Char.toLower

/-- Split at the first `e`/`E`: the mantissa and, when an exponent marker
is present, the characters after it. -/
def splitAtExpChar : List Char → List Char × Option (List Char)
  | [] => ([], none)
  | c :: rest =>
    if c = 'e' ∨ c = 'E' then ([], some rest)
    else
      let p := splitAtExpChar rest
      (c :: p.1, p.2)

/-- The mantissa of a CPython float literal: `digits`, `digits.`,
`.digits` or `digits.digits` (underscore grouping allowed inside each
digit run). -/
def parseMantissa (cs : List Char) : Option ℚ :=
  match splitOnChar '.' cs with
  | [ip] => (parseUDigits ip).map (fun v => ((v.1 : ℚ)))
  | [ip, fp] =>
    if ip = [] then (parseUDigits fp).map (fun v => ((v.1 : ℚ)) / (10 : ℚ) ^ v.2)
    else if fp = [] then (parseUDigits ip).map (fun v => ((v.1 : ℚ)))
    else
      match parseUDigits ip, parseUDigits fp with
      | some a, some b => some (((a.1 : ℚ)) + ((b.1 : ℚ)) / (10 : ℚ) ^ b.2)
      | _, _ => none
  | _ => none

/-- An exponent: optional sign and a digit run. -/
def parseExp (cs : List Char) : Option Int :=
  match cs with
  | [] => none
  | c :: rest =>
    if c = '-' then (parseUDigits rest).map (fun v => -((v.1 : Int)))
    else if c = '+' then (parseUDigits rest).map (fun v => ((v.1 : Int)))
    else (parseUDigits (c :: rest)).map (fun v => ((v.1 : Int)))

/-- An unsigned numeric float literal: mantissa with optional exponent. -/
def parseNumberMag (cs : List Char) : Option ℚ :=
  let se := splitAtExpChar cs
  match parseMantissa se.1 with
  | none => none
  | some m =>
    match se.2 with
    | none => some m
    | some ex =>
      match parseExp ex with
      | none => none
      | some e => some (m * (10 : ℚ) ^ e)

/-- The unsigned part of CPython `float(s)`: a numeric literal, or the
case-insensitive special literals `inf`/`infinity`/`nan` (a string is
never both, so the order of the two attempts is immaterial). -/
def pyFloatMag (cs : List Char) : Option PyFloat :=
  match parseNumberMag cs with
  | some q => some (PyFloat.finite q)
  | none =>
    let ls := lowerL cs
    if ls = "inf".data ∨ ls = "infinity".data then some PyFloat.posInf
    else if ls = "nan".data then some PyFloat.nan
    else none

/-- CPython `float(s)` on ASCII strings: strip whitespace, an optional
sign, then the unsigned literal. -/
def pyFloatParseL (cs : List Char) : Option PyFloat :=
  match stripPySpace cs with
  | [] => none
  | c :: rest =>
    if c = '-' then (pyFloatMag rest).map pyNegF
    else if c = '+' then pyFloatMag rest
    else pyFloatMag (c :: rest)

lemma dot_not_mem_of_all_digits {cs : List Char} (h : cs.all Char.isDigit = true) :
    '.' ∉ cs := by
  intro hm
  have := List.all_eq_true.mp h _ hm
  simp at this

lemma splitAtExpChar_of_forall {cs : List Char} (h : ∀ c ∈ cs, ¬ (c = 'e' ∨ c = 'E')) :
    splitAtExpChar cs = (cs, none) := by
  induction cs with
  | nil => rfl
  | cons c t ih =>
    simp only [splitAtExpChar, if_neg (h c (List.mem_cons_self c t))]
    rw [ih (fun x hx => h x (List.mem_cons_of_mem c hx))]

lemma pyFloatMag_all_digits {cs : List Char} (hne : cs ≠ [])
    (hdig : cs.all Char.isDigit = true) :
    pyFloatMag cs = some (PyFloat.finite ((digitsVal cs : ℚ))) := by
  have he : splitAtExpChar cs = (cs, none) := by
    refine splitAtExpChar_of_forall (fun c hc => ?_)
    have hd := List.all_eq_true.mp hdig c hc
    rintro (rfl | rfl) <;> simp at hd
  simp only [pyFloatMag, parseNumberMag, he, parseMantissa,
    splitOnChar_not_mem (dot_not_mem_of_all_digits hdig),
    parseUDigits_all_digits hne hdig, Option.map_some']

lemma pyFloatParseL_natToStrL (n : Nat) :
    pyFloatParseL (natToStrL n) = some (PyFloat.finite ((n : ℚ))) := by
  cases hcs : natToStrL n with
  | nil => exact absurd hcs (natToStrL_ne_nil n)
  | cons c t =>
    have hdig := natToStrL_all_digits n
    have hsp := stripPySpace_digits hdig
    have hval := natToStrL_val n
    rw [hcs] at hdig hsp hval
    have hc : c.isDigit = true := by
      have h2 := hdig
      simp only [List.all_cons, Bool.and_eq_true] at h2
      exact h2.1
    obtain ⟨h1, h2⟩ := ne_of_isDigit hc
    simp only [pyFloatParseL, hsp, if_neg h1, if_neg h2,
      pyFloatMag_all_digits (by simp) hdig, hval]

lemma pyFloatParseL_intToStrL (n : Int) :
    pyFloatParseL (intToStrL n) = some (PyFloat.finite ((n : ℚ))) := by
  by_cases h : n < 0
  · rw [intToStrL, if_pos h]
    simp only [pyFloatParseL, stripPySpace_neg_digits, if_pos,
      pyFloatMag_all_digits (natToStrL_ne_nil n.natAbs) (natToStrL_all_digits n.natAbs),
      Option.map_some', natToStrL_val, pyNegF]
    have habs : ((n.natAbs : ℚ)) = -((n : ℚ)) := by
      rw [Int.cast_natAbs, abs_of_neg h]
      push_cast
      ring
    rw [habs, neg_neg]
  · rw [intToStrL, if_neg h, pyFloatParseL_natToStrL]
    have habs : ((n.natAbs : ℚ)) = ((n : ℚ)) := by
      rw [Int.cast_natAbs, abs_of_nonneg (not_lt.mp h)]
    rw [habs]

/-- CPython `'%d' % x` and `int(x)` on a float: truncation toward zero. -/
def pyTruncQ (q : ℚ) : Int := q.num.tdiv q.den

lemma pyTruncQ_eq_floor {q : ℚ} (h : 0 ≤ q) : pyTruncQ q = ⌊q⌋ := by
  rw [Rat.floor_def, pyTruncQ]
  exact Int.tdiv_eq_ediv (Rat.num_nonneg.mpr h) (Int.natCast_nonneg _)

lemma pyTruncQ_intCast (n : Int) : pyTruncQ ((n : ℚ)) = n := by
  rw [pyTruncQ, Rat.num_intCast, Rat.den_intCast]
  exact Int.tdiv_one n

/-! ### POSIX pure path operations (`os.path`), as used by the plug-in -/

def lastIndexOf (c : Char) : List Char → Option Nat
  | [] => none
  | x :: rest =>
    match lastIndexOf c rest with
    | some i => some (i + 1)
    | none => if x = c then some 0 else none

/-- Start of the basename: `rfind('/') + 1`, `0` when there is no slash. -/
def basenameStart (p : List Char) : Nat :=
  match lastIndexOf '/' p with
  | some i => i + 1
  | none => 0

/-- `posixpath.splitext`: split off the extension at the last dot of the
basename, unless every character before that dot (within the basename) is
itself a dot. -/
def splitextL (p : List Char) : List Char × List Char :=
  let si := basenameStart p
  match lastIndexOf '.' p with
  | none => (p, [])
  | some di =>
    if si ≤ di ∧ ((p.drop si).take (di - si)).any (fun c => c ≠ '.') then
      (p.take di, p.drop di)
    else (p, [])

/-- `is_xcf` from `save_both` (saver.py lines 132-138): extension after
stripping one `.gz`/`.bz2` compression suffix, compared case-insensitively
with `.xcf`. -/
def is_xcf (thefilename : String) : Bool :=
  let be := splitextL thefilename.data
  let ext := lowerL be.2
  if ext = ".gz".data ∨ ext = ".bz2".data then
    lowerL (splitextL be.1).2 = ".xcf".data
  else ext = ".xcf".data

/-- `posixpath.dirname`. -/
def posixDirnameL (p : List Char) : List Char :=
  let head := p.take (basenameStart p)
  if head ≠ [] ∧ head.any (fun c => c ≠ '/') then
    (head.reverse.dropWhile (fun c => c = '/')).reverse
  else head

/-- `posixpath.basename`. -/
def posixBasenameL (p : List Char) : List Char := p.drop (basenameStart p)

/-- `posixpath.join` on two components. -/
def posixJoinL (a b : List Char) : List Char :=
  if b.head? = some '/' then b
  else if a = [] ∨ a.getLast? = some '/' then a ++ b
  else a ++ '/' :: b

def posixDirname (p : String) : String := ⟨posixDirnameL p.data⟩

def posixBasename (p : String) : String := ⟨posixBasenameL p.data⟩

def posixJoin (a b : String) : String := ⟨posixJoinL a.data b.data⟩

/-! ### The data model: documents, host statuses, events, outcomes -/

/-- `Gimp.PDBStatusType` as returned by `gimp-file-save`. -/
inductive GimpStatus where
  | success
  | executionError
  | callingError
  | cancel
  deriving DecidableEq, Repr

/-- The observable state of a GIMP image used by `save_both`:
file association, pixel dimensions, number of selected layers, the
clean/dirty flag and the attached parasites (name, data). -/
structure Doc where
  filePath : Option String
  width : Int
  height : Int
  nlayers : Nat
  clean : Bool
  parasites : List (String × String)
  deriving DecidableEq, Repr

/-- Calls into the host (GIMP) API recorded by the model, in order. -/
inductive Ev where
  | primarySave (path : String)
  | mergeVisible
  | setFile (path : String)
  | cleanAll
  | attachParasite (pname : String) (pdata : String)
  | duplicateImg
  | scaleImg (w h : Int)
  | copySave (path : String)
  | deleteImg
  deriving DecidableEq, Repr

/-- Exceptions CPython raises while executing the plug-in. -/
inductive PyErr where
  | nameError (n : String)
  | zeroDivisionError
  | typeError
  | overflowError
  | valueError
  deriving DecidableEq, Repr

/-- The value a `return` statement of `save_both` produces:
`fullResult` is the whole `Gimp.ValueArray` of the primary save
(line 175 `return mainres`), `statusCode` is the bare
`Gimp.PDBStatusType` extracted by `.index(0)` (lines 160 and 254),
`noneVal` is `return None` (line 273). -/
inductive SBRet where
  | fullResult (st : GimpStatus)
  | statusCode (st : GimpStatus)
  | noneVal
  deriving DecidableEq, Repr

/-- Either a returned value or an uncaught exception. -/
inductive SBOut where
  | ret (v : SBRet)
  | exn (e : PyErr)
  deriving DecidableEq, Repr

/-- Result of running `save_both`: its outcome, the final state of the
original image, and the trace of host-API calls. -/
structure SBResult where
  out : SBOut
  image : Doc
  trace : List Ev
  deriving DecidableEq, Repr

/-- `Gimp.Image.attach_parasite`: replaces any parasite of the same name. -/
def attachPara (ps : List (String × String)) (n d : String) : List (String × String) :=
  (n, d) :: ps.filter (fun x => ¬ x.1 = n)

/-! ### `save_both` (saver.py lines 121-273) -/

/-- `percent = copywidth * 100.0 / image.get_width()` (line 182), exact in
double precision for the integer operands the plug-in uses. -/
def pyPercent (copywidth imgW : Int) : ℚ := (copywidth : ℚ) * 100 / (imgW : ℚ)

/-- The `parastring` built at lines 179-190:
`'%s\n%d\n%d\n%d' % (copyname, percent, copywidth, copyheight)` when both
copy dimensions are non-zero, else `'%s\n100.0\n0\n0' % copyname`.
`%d` truncates the float `percent` toward zero. -/
def encodeDesc (copyname : String) (percent : ℚ) (copywidth copyheight : Int) : String :=
  if copywidth ≠ 0 ∧ copyheight ≠ 0 then
    ⟨copyname.data ++ '\n' ::
      (intToStrL (pyTruncQ percent) ++ '\n' :: (intToStrL copywidth ++ '\n' :: intToStrL copyheight))⟩
  else
    ⟨copyname.data ++ ('\n' :: "100.0\n0\n0".data)⟩

/-- Lines 210-213: a copy name starting with `/` is used unchanged,
otherwise it is joined to the directory of the primary path. -/
def resolveCopypath (copyname filepath : String) : String :=
  if copyname.data.head? = some '/' then copyname
  else ⟨posixJoinL (posixDirnameL filepath.data) copyname.data⟩

/-- A parasite name matching `pname[-9:] == '-settings' or
pname[-13:] == '-save-options'` (line 264); for these literal suffix
lengths the slice comparison coincides with a suffix test. -/
def settingsName (n : String) : Bool :=
  n.data.drop (n.data.length - 9) = "-settings".data ∨
  n.data.drop (n.data.length - 13) = "-save-options".data

/-- `copy_settings_parasites` (lines 259-267): an early return when both
arguments are the same image; otherwise the loop scans the source image's
parasite names for a settings suffix.  For the first match it fetches the
parasite (always truthy) and calls
`toimg.attach_parasite(pname, para.flags, para.data)` — but GIMP 3's
`attach_parasite` takes a single `Gimp.Parasite`, so this three-argument
call raises `TypeError` and nothing is attached; with no match the loop
completes and the target image is unchanged. -/
def copySettingsParasites (fromPs : List (String × String)) (toDoc : Doc) (same : Bool) :
    Except PyErr Doc :=
  if same then Except.ok toDoc
  else if fromPs.any (fun x => settingsName x.1) then Except.error PyErr.typeError
  else Except.ok toDoc

/-- Lines 249-273: save the copy; on non-success return `copyres.index(0)`
(line 254) — without deleting the duplicate.  On success run
`copy_settings_parasites`, which raises `TypeError` at line 267 when the
copy source carries a settings parasite; otherwise execution reaches
`gimp.delete(copyimg)` (line 272), which raises `NameError` because no
module named `gimp` exists in the GIMP 3 plug-in.  Either way
`return None` (line 273) is unreachable. -/
def finishCopy (copySt : GimpStatus) (image copyimg : Doc) (isDup : Bool)
    (copypath : String) (tr : List Ev) : SBResult :=
  let tr2 := tr ++ [Ev.copySave copypath]
  if copySt ≠ GimpStatus.success then
    ⟨SBOut.ret (SBRet.statusCode copySt), image, tr2⟩
  else
    match copySettingsParasites copyimg.parasites image (!isDup) with
    | Except.ok image3 => ⟨SBOut.exn (PyErr.nameError "gimp"), image3, tr2⟩
    | Except.error e => ⟨SBOut.exn e, image, tr2⟩

/-- Lines 177-273 of `save_both`: everything after the copy-eligibility
check, operating on the already-committed image.

Line 182 divides by `image.get_width()`, so a zero-width document raises
`ZeroDivisionError` there.  In the copy-preparation branches that need a
merge, the merge statement names the undefined global `CLIP_TO_IMAGE`
(lines 231 and 240), so CPython raises `NameError` while evaluating the
call's arguments, before any merge happens. -/
def copyStep (copySt : GimpStatus) (image : Doc) (filepath copyname : String)
    (copywidth copyheight : Int) : SBResult :=
  if copywidth ≠ 0 ∧ copyheight ≠ 0 ∧ image.width = 0 then
    ⟨SBOut.exn PyErr.zeroDivisionError, image, []⟩
  else
    let parastring := encodeDesc copyname (pyPercent copywidth image.width) copywidth copyheight
    let image2 : Doc := { image with parasites := attachPara image.parasites "export-copy" parastring }
    let tr0 : List Ev := [Ev.attachParasite "export-copy" parastring]
    let copypath := resolveCopypath copyname filepath
    if copywidth ≠ 0 ∧ copyheight ≠ 0 then
      -- lines 225-234: duplicate and scale
      let tr1 := tr0 ++ [Ev.duplicateImg, Ev.scaleImg copywidth copyheight]
      let copyimg : Doc := { image2 with width := copywidth, height := copyheight }
      if image.nlayers > 1 ∧ ¬ is_xcf copyname then
        ⟨SBOut.exn (PyErr.nameError "CLIP_TO_IMAGE"), image2, tr1⟩
      else
        finishCopy copySt image2 copyimg true copypath tr1
    else if image.nlayers > 1 ∧ ¬ is_xcf copyname then
      -- lines 236-241 (unreachable in practice: the skip check already
      -- returned when either copy dimension is zero)
      ⟨SBOut.exn (PyErr.nameError "CLIP_TO_IMAGE"), image2, tr0 ++ [Ev.duplicateImg]⟩
    else
      -- lines 243-245: use the original image directly
      finishCopy copySt image2 image2 false copypath tr0

/-- The copy-eligibility check at lines 170-173. -/
def skipCopy (image : Doc) (filepath copyname : String) (copywidth copyheight : Int) : Prop :=
  copyname = "" ∨ copywidth = 0 ∨ copyheight = 0 ∨ copyname = filepath ∨
  copyname = posixBasename filepath ∨ (copywidth = image.width ∧ copyheight = image.height)

instance (image : Doc) (filepath copyname : String) (cw ch : Int) :
    Decidable (skipCopy image filepath copyname cw ch) := by
  unfold skipCopy
  infer_instance

/-- `SaverPlugin.save_both` (lines 121-273).  The two `gimp-file-save`
results are supplied by the host oracle as `primarySt` and `copySt`.

The non-native multi-layer primary branch (lines 144-155) references the
undefined globals `pdb` and `img` at line 147, so CPython raises
`NameError` there before any duplication, merge or save happens. -/
def save_both (primarySt copySt : GimpStatus) (image : Doc) (filepath copyname : String)
    (copywidth copyheight : Int) : SBResult :=
  if is_xcf filepath = true ∨ image.nlayers < 2 then
    let tr0 : List Ev := [Ev.primarySave filepath]
    if primarySt ≠ GimpStatus.success then
      ⟨SBOut.ret (SBRet.statusCode primarySt), image, tr0⟩
    else
      let image1 := { image with filePath := some filepath, clean := true }
      let tr1 := tr0 ++ [Ev.setFile filepath, Ev.cleanAll]
      if skipCopy image1 filepath copyname copywidth copyheight then
        ⟨SBOut.ret (SBRet.fullResult primarySt), image1, tr1⟩
      else
        let r := copyStep copySt image1 filepath copyname copywidth copyheight
        ⟨r.out, r.image, tr1 ++ r.trace⟩
  else
    ⟨SBOut.exn (PyErr.nameError "pdb"), image, []⟩

/-! ### `init_from_parasite` (saver.py lines 275-300) -/

/-- The value a decoded field holds in Python: the list-comprehension at
lines 283-284 replaces `'None'` and `''` by the *int* `0`, and the
fallback `copyname` is Python `None`. -/
inductive PyV where
  | pynone
  | intZero
  | str (s : String)
  deriving DecidableEq, Repr

/-- The four attributes `copyname`, `export_percent`, `export_width`,
`export_height` set by `init_from_parasite`. -/
structure ParaDesc where
  copyname : PyV
  export_percent : PyFloat
  export_width : Int
  export_height : Int
  deriving DecidableEq, Repr

/-- The fallback of lines 295-300: no copy name, percent `100.0`,
dimensions equal to the document's current size. -/
def defaultDesc (imgW imgH : Int) : ParaDesc :=
  ⟨PyV.pynone, PyFloat.finite 100, imgW, imgH⟩

/-- `0 if x == 'None' or x == '' else x` (lines 283-284). -/
def sentinelize (x : List Char) : PyV :=
  if x = "None".data ∨ x = [] then PyV.intZero else PyV.str ⟨x⟩

/-- Python `float(v)` on a decoded field. -/
def pyFloatOfV : PyV → Option PyFloat
  | PyV.intZero => some (PyFloat.finite 0)
  | PyV.str s => pyFloatParseL s.data
  | PyV.pynone => none

/-- Python `int(v)` on a decoded field. -/
def pyIntOfV : PyV → Option Int
  | PyV.intZero => some 0
  | PyV.str s => pyIntParseL s.data
  | PyV.pynone => none

/-- The `try` body of lines 281-288: split the blob on newlines, apply the
sentinel substitution, then read fields 0-3 (`IndexError` when fewer than
four fields, `ValueError` when a numeric field fails to parse — any such
exception yields `none`). -/
def parseParaVals (pdata : String) : Option ParaDesc :=
  let paravals := (splitOnChar '\n' pdata.data).map sentinelize
  match paravals[0]?, paravals[1]?, paravals[2]?, paravals[3]? with
  | some v0, some v1, some v2, some v3 =>
    match pyFloatOfV v1, pyIntOfV v2, pyIntOfV v3 with
    | some p, some w, some h => some ⟨v0, p, w, h⟩
    | _, _, _ => none
  | _, _, _, _ => none

/-- `SaverPlugin.init_from_parasite` (lines 275-300): `para` is the
`export-copy` parasite's data when the parasite is present.  Any failure
inside the `try` block is caught and falls back to the defaults. -/
def init_from_parasite (para : Option String) (imgW imgH : Int) : ParaDesc :=
  match para with
  | Option.none => defaultDesc imgW imgH
  | Option.some pdata =>
    match parseParaVals pdata with
    | Option.some d => d
    | Option.none => defaultDesc imgW imgH

/-! ### The dimension reconciler (`SaverChooserWin.entry_changed`,
saver.py lines 497-553) -/

lemma settingsName_export_copy : settingsName "export-copy" = false := by decide

lemma copySettingsParasites_ok {ps : List (String × String)} {d : Doc} {b : Bool} {d2 : Doc}
    (h : copySettingsParasites ps d b = Except.ok d2) : d2 = d := by
  rw [copySettingsParasites] at h
  split at h
  · injection h with h2
    exact h2.symm
  · split at h
    · exact Except.noConfusion h
    · injection h with h2
      exact h2.symm

lemma copySettingsParasites_error {ps : List (String × String)} {d : Doc} {b : Bool} {e : PyErr}
    (h : copySettingsParasites ps d b = Except.error e) :
    e = PyErr.typeError ∧ ps.any (fun x => settingsName x.1) = true := by
  rw [copySettingsParasites] at h
  split at h
  · exact Except.noConfusion h
  · split at h
    · injection h with h2
      exact ⟨h2.symm, by assumption⟩
    · exact Except.noConfusion h

lemma copySettingsParasites_no_settings {ps : List (String × String)} {d : Doc} {b : Bool}
    (h : ∀ x ∈ ps, settingsName x.1 = false) :
    copySettingsParasites ps d b = Except.ok d := by
  rw [copySettingsParasites]
  have hany : ps.any (fun x => settingsName x.1) = false := by
    rw [List.any_eq_false]
    intro x hx
    simp [h x hx]
  split
  · rfl
  · rw [hany]
    rfl

lemma mem_intToStrL {c : Char} {n : Int} (h : c ∈ intToStrL n) :
    c = '-' ∨ c.isDigit = true := by
  unfold intToStrL at h
  have hdig : ∀ x ∈ natToStrL n.natAbs, Char.isDigit x = true :=
    fun x hx => List.all_eq_true.mp (natToStrL_all_digits n.natAbs) x hx
  split at h
  · rcases List.mem_cons.mp h with h1 | h2
    · exact Or.inl h1
    · exact Or.inr (hdig c h2)
  · exact Or.inr (hdig c h)

lemma nl_not_mem_intToStrL (n : Int) : '\n' ∉ intToStrL n := by
  intro h
  rcases mem_intToStrL h with h1 | h2
  · exact absurd h1 (by decide)
  · exact absurd h2 (by decide)

lemma intToStrL_ne_nil (n : Int) : intToStrL n ≠ [] := by
  unfold intToStrL
  split
  · simp
  · exact natToStrL_ne_nil _

lemma intToStrL_ne_None (n : Int) : intToStrL n ≠ "None".data := by
  intro h
  have hN : 'N' ∈ intToStrL n := by
    rw [h]
    decide
  rcases mem_intToStrL hN with h1 | h2
  · exact absurd h1 (by decide)
  · exact absurd h2 (by decide)

/-! ### C9: the path resolver -/

/-- C9: for every copy name and primary path, the resolver returns the
copy name unchanged when it begins with the path-root marker `/`, and
otherwise returns the `os.path.join` of the primary path's directory
component with the copy name; nothing else is applied. -/
theorem pathResolver_absolute_or_join (copyname filepath : String) :
    (copyname.data.head? = some '/' → resolveCopypath copyname filepath = copyname) ∧
    (copyname.data.head? ≠ some '/' →
      resolveCopypath copyname filepath = posixJoin (posixDirname filepath) copyname) := by
  constructor
  · intro h
    rw [resolveCopypath, if_pos h]
  · intro h
    rw [resolveCopypath, if_neg h]
    rfl

/-- Witness for C9 at concrete inputs: an absolute copy name is returned
unchanged; a relative one is joined to the primary's directory. -/
theorem pathResolver_absolute_or_join_witness :
    resolveCopypath "/abs/copy.jpg" "/tmp/img.xcf" = "/abs/copy.jpg" ∧
    resolveCopypath "copy.jpg" "/tmp/img.xcf" = posixJoin (posixDirname "/tmp/img.xcf") "copy.jpg" :=
  ⟨(pathResolver_absolute_or_join "/abs/copy.jpg" "/tmp/img.xcf").1 (by decide),
   (pathResolver_absolute_or_join "copy.jpg" "/tmp/img.xcf").2 (by decide)⟩

/-! ### C8: the width edit of the dimension reconciler -/

/-- C3 (code bug): a 3-layer document saved to the non-native path
`photo.jpg` should duplicate and merge visible layers before the primary
save, but line 147 references the undefined globals `pdb` and `img`, so
the call raises `NameError` with an empty host-call trace — no duplicate,
no merge, and no primary save happen.  The same document saved to the
native path `photo.xcf` does save directly with no merge, as the claim
states for the native case. -/
theorem merge_branch_raises_nameError :
    save_both GimpStatus.success GimpStatus.success
        ⟨Option.none, 800, 600, 3, false, []⟩ "photo.jpg" "" 0 0 =
      ⟨SBOut.exn (PyErr.nameError "pdb"), ⟨Option.none, 800, 600, 3, false, []⟩, []⟩ ∧
    (save_both GimpStatus.success GimpStatus.success
        ⟨Option.none, 800, 600, 3, false, []⟩ "photo.xcf" "" 0 0).trace =
      [Ev.primarySave "photo.xcf", Ev.setFile "photo.xcf", Ev.cleanAll] := by
  constructor
  · decide
  · decide

/-! ### C1: the copy-eligibility (skip) condition -/

/-- Counterexample to C1: a copy name (`copy.jpg`) that differs from the
primary path and its basename, with non-zero copy dimensions equal to the
document's 800×600, is nonetheless skipped: `save_both` returns the full
primary result and the trace shows no descriptor attach and no copy save.
The claim asserted a copy save must still be performed in this case. -/
theorem equal_dims_different_name_skipped :
    save_both GimpStatus.success GimpStatus.success
        ⟨Option.none, 800, 600, 1, false, []⟩ "/tmp/img.xcf" "copy.jpg" 800 600 =
      ⟨SBOut.ret (SBRet.fullResult GimpStatus.success),
       ⟨Option.some "/tmp/img.xcf", 800, 600, 1, true, []⟩,
       [Ev.primarySave "/tmp/img.xcf", Ev.setFile "/tmp/img.xcf", Ev.cleanAll]⟩ := by
  decide

lemma copyStep_attach_mem (copySt : GimpStatus) (image : Doc) (filepath copyname : String)
    (cw ch : Int) (hW : image.width ≠ 0) :
    Ev.attachParasite "export-copy" (encodeDesc copyname (pyPercent cw image.width) cw ch)
      ∈ (copyStep copySt image filepath copyname cw ch).trace := by
  simp only [copyStep, if_neg (fun hcon => hW ((hcon : _ ∧ _ ∧ _).2.2))]
  split
  · split
    · exact List.mem_cons_self _ _
    · simp only [finishCopy]
      split
      · simp
      · split <;> simp
  · split
    · exact List.mem_cons_self _ _
    · simp only [finishCopy]
      split
      · simp
      · split <;> simp

lemma copyStep_image_fields (copySt : GimpStatus) (image : Doc) (filepath copyname : String)
    (cw ch : Int) :
    (copyStep copySt image filepath copyname cw ch).image.filePath = image.filePath ∧
    (copyStep copySt image filepath copyname cw ch).image.clean = image.clean := by
  simp only [copyStep]
  split
  · exact ⟨rfl, rfl⟩
  · split
    · split
      · exact ⟨rfl, rfl⟩
      · simp only [finishCopy]
        split
        · exact ⟨rfl, rfl⟩
        · split
          · next d2 heq =>
              rw [copySettingsParasites_ok heq]
              exact ⟨rfl, rfl⟩
          · exact ⟨rfl, rfl⟩
    · split
      · exact ⟨rfl, rfl⟩
      · simp only [finishCopy]
        split
        · exact ⟨rfl, rfl⟩
        · split
          · next d2 heq =>
              rw [copySettingsParasites_ok heq]
              exact ⟨rfl, rfl⟩
          · exact ⟨rfl, rfl⟩

/-- C1 (amended): with a configured copy (non-empty name, both dimensions
non-zero) and a successful primary save on the direct-save branch, the
copy step is skipped — the host's full primary result is returned with no
descriptor attach and no copy save — if and only if the copy name equals
the primary path or its basename, **or** the requested copy dimensions
equal the document's current dimensions.  Equal dimensions alone therefore
suffice to skip, even when the copy name differs from the primary path. -/
theorem copy_skipped_iff (copySt : GimpStatus) (image : Doc)
    (filepath copyname : String) (cw ch : Int)
    (hbr : is_xcf filepath = true ∨ image.nlayers < 2) (hW : 0 < image.width)
    (hn : copyname ≠ "") (hw : cw ≠ 0) (hh : ch ≠ 0) :
    ((save_both GimpStatus.success copySt image filepath copyname cw ch).out
        = SBOut.ret (SBRet.fullResult GimpStatus.success) ∧
     (∀ d, Ev.attachParasite "export-copy" d ∉
        (save_both GimpStatus.success copySt image filepath copyname cw ch).trace) ∧
     (∀ p, Ev.copySave p ∉
        (save_both GimpStatus.success copySt image filepath copyname cw ch).trace))
    ↔ (copyname = filepath ∨ copyname = posixBasename filepath ∨
        (cw = image.width ∧ ch = image.height)) := by
  by_cases hskip :
      skipCopy { image with filePath := some filepath, clean := true } filepath copyname cw ch
  · have hrhs : copyname = filepath ∨ copyname = posixBasename filepath ∨
        (cw = image.width ∧ ch = image.height) := by
      rcases hskip with h | h | h | h | h | h
      · exact absurd h hn
      · exact absurd h hw
      · exact absurd h hh
      · exact Or.inl h
      · exact Or.inr (Or.inl h)
      · exact Or.inr (Or.inr h)
    have hres : save_both GimpStatus.success copySt image filepath copyname cw ch =
        ⟨SBOut.ret (SBRet.fullResult GimpStatus.success),
         { image with filePath := some filepath, clean := true },
         [Ev.primarySave filepath, Ev.setFile filepath, Ev.cleanAll]⟩ := by
      simp only [save_both, if_pos hbr, if_neg (not_not_intro rfl), if_pos hskip]
      rfl
    rw [hres]
    refine iff_of_true ⟨rfl, fun d => by simp, fun p => by simp⟩ hrhs
  · have hrhs : ¬ (copyname = filepath ∨ copyname = posixBasename filepath ∨
        (cw = image.width ∧ ch = image.height)) := by
      intro h
      apply hskip
      rcases h with h | h | h
      · exact Or.inr (Or.inr (Or.inr (Or.inl h)))
      · exact Or.inr (Or.inr (Or.inr (Or.inr (Or.inl h))))
      · exact Or.inr (Or.inr (Or.inr (Or.inr (Or.inr h))))
    have htr : (save_both GimpStatus.success copySt image filepath copyname cw ch).trace
        = [Ev.primarySave filepath, Ev.setFile filepath, Ev.cleanAll] ++
          (copyStep copySt { image with filePath := some filepath, clean := true }
            filepath copyname cw ch).trace := by
      simp only [save_both, if_pos hbr, if_neg (not_not_intro rfl), if_neg hskip]
      simp
    refine iff_of_false (fun hcon => ?_) hrhs
    refine hcon.2.1 (encodeDesc copyname (pyPercent cw image.width) cw ch) ?_
    rw [htr]
    have hW0 : ({ image with filePath := some filepath, clean := true } : Doc).width ≠ 0 := by
      show image.width ≠ 0
      omega
    exact List.mem_append_right _
      (copyStep_attach_mem copySt _ filepath copyname cw ch hW0)

/-- Witness for C1 (amended): equal 800×600 dimensions with a copy name
that differs from the primary path and basename satisfy the skip
condition, so `save_both` returns the full primary result. -/
theorem copy_skipped_iff_witness :
    (save_both GimpStatus.success GimpStatus.success
        ⟨Option.none, 800, 600, 1, false, []⟩ "/tmp/img.xcf" "copy.jpg" 800 600).out
      = SBOut.ret (SBRet.fullResult GimpStatus.success) :=
  ((copy_skipped_iff GimpStatus.success ⟨Option.none, 800, 600, 1, false, []⟩
      "/tmp/img.xcf" "copy.jpg" 800 600 (Or.inr (by decide)) (by decide)
      (by decide) (by decide) (by decide)).mpr
    (Or.inr (Or.inr ⟨rfl, rfl⟩))).1

/-! ### C2: the primary commit precedes the copy attempt and survives it -/

/-- C2: whenever the primary save runs and succeeds (native path or fewer
than two layers), the trace begins with the primary save immediately
followed by the file-association update and the clean-marking — so both
precede any copy-save attempt — and on every outcome, including a failed
copy save, the final image still carries `filepath` as its file
association and remains marked clean (the commit is never rolled back). -/
theorem primary_committed_before_copy (primarySt copySt : GimpStatus) (image : Doc)
    (filepath copyname : String) (cw ch : Int)
    (hbr : is_xcf filepath = true ∨ image.nlayers < 2)
    (hp : primarySt = GimpStatus.success) :
    (save_both primarySt copySt image filepath copyname cw ch).trace.take 3
      = [Ev.primarySave filepath, Ev.setFile filepath, Ev.cleanAll] ∧
    (save_both primarySt copySt image filepath copyname cw ch).image.filePath = some filepath ∧
    (save_both primarySt copySt image filepath copyname cw ch).image.clean = true := by
  subst hp
  simp only [save_both, if_pos hbr, if_neg (not_not_intro rfl)]
  by_cases hskip :
      skipCopy { image with filePath := some filepath, clean := true } filepath copyname cw ch
  · rw [if_pos hskip]
    exact ⟨rfl, rfl, rfl⟩
  · rw [if_neg hskip]
    refine ⟨rfl, ?_, ?_⟩
    · exact (copyStep_image_fields copySt _ filepath copyname cw ch).1
    · exact (copyStep_image_fields copySt _ filepath copyname cw ch).2

/-- Witness for C2 at a concrete input whose copy save fails: the trace
still opens with save/set-file/clean-all and the final image keeps the
committed path and clean flag. -/
theorem primary_committed_before_copy_witness :
    (save_both GimpStatus.success GimpStatus.executionError
        ⟨Option.none, 800, 600, 1, false, []⟩ "/tmp/photo.xcf" "photo.jpg" 200 150).trace.take 3
      = [Ev.primarySave "/tmp/photo.xcf", Ev.setFile "/tmp/photo.xcf", Ev.cleanAll] ∧
    (save_both GimpStatus.success GimpStatus.executionError
        ⟨Option.none, 800, 600, 1, false, []⟩ "/tmp/photo.xcf" "photo.jpg" 200 150).image.filePath
      = some "/tmp/photo.xcf" ∧
    (save_both GimpStatus.success GimpStatus.executionError
        ⟨Option.none, 800, 600, 1, false, []⟩ "/tmp/photo.xcf" "photo.jpg" 200 150).image.clean
      = true :=
  primary_committed_before_copy GimpStatus.success GimpStatus.executionError
    ⟨Option.none, 800, 600, 1, false, []⟩ "/tmp/photo.xcf" "photo.jpg" 200 150
    (Or.inr (by decide)) rfl

lemma copyStep_copySave_run (copySt : GimpStatus) (image : Doc) (filepath copyname : String)
    (cw ch : Int) (p : String) (hcw : cw ≠ 0) (hch : ch ≠ 0) (hW : image.width ≠ 0)
    (h : Ev.copySave p ∈ (copyStep copySt image filepath copyname cw ch).trace) :
    (copyStep copySt image filepath copyname cw ch).trace
      = [Ev.attachParasite "export-copy" (encodeDesc copyname (pyPercent cw image.width) cw ch),
         Ev.duplicateImg, Ev.scaleImg cw ch, Ev.copySave (resolveCopypath copyname filepath)] ∧
    p = resolveCopypath copyname filepath ∧
    ("export-copy", encodeDesc copyname (pyPercent cw image.width) cw ch)
      ∈ (copyStep copySt image filepath copyname cw ch).image.parasites ∧
    (copySt ≠ GimpStatus.success →
      (copyStep copySt image filepath copyname cw ch).out = SBOut.ret (SBRet.statusCode copySt)) ∧
    (copySt = GimpStatus.success →
      ((copyStep copySt image filepath copyname cw ch).out = SBOut.exn (PyErr.nameError "gimp") ∨
       (copyStep copySt image filepath copyname cw ch).out = SBOut.exn PyErr.typeError) ∧
      ((∀ x ∈ image.parasites, settingsName x.1 = false) →
        (copyStep copySt image filepath copyname cw ch).out
          = SBOut.exn (PyErr.nameError "gimp"))) := by
  have hz : ¬ (cw ≠ 0 ∧ ch ≠ 0 ∧ image.width = 0) := fun hcon => hW hcon.2.2
  simp only [copyStep, if_neg hz, if_pos (And.intro hcw hch)] at h ⊢
  by_cases hm : image.nlayers > 1 ∧ ¬ is_xcf copyname = true
  · rw [if_pos hm] at h
    simp at h
  · rw [if_neg hm] at h ⊢
    simp only [finishCopy] at h ⊢
    by_cases hcs : copySt = GimpStatus.success
    · rw [if_neg (not_not_intro hcs)] at h ⊢
      split at h
      next d2 heq =>
        have hd2 := copySettingsParasites_ok heq
        subst hd2
        have hp : p = resolveCopypath copyname filepath := by
          simpa using h
        refine ⟨by simp, hp, List.mem_cons_self _ _, fun hne => absurd hcs hne,
          fun _ => ⟨Or.inl rfl, fun _ => rfl⟩⟩
      next e heq =>
        obtain ⟨he, hany⟩ := copySettingsParasites_error heq
        subst he
        have hp : p = resolveCopypath copyname filepath := by
          simpa using h
        refine ⟨by simp, hp, List.mem_cons_self _ _, fun hne => absurd hcs hne,
          fun _ => ⟨Or.inr rfl, fun hns => ?_⟩⟩
        exfalso
        rw [List.any_eq_true] at hany
        obtain ⟨x, hx, hsx⟩ := hany
        rcases List.mem_cons.mp hx with rfl | hx2
        · exact absurd hsx (by simp [settingsName_export_copy])
        · exact absurd hsx (by simp [hns x (List.mem_of_mem_filter hx2)])
    · rw [if_pos hcs] at h ⊢
      have hp : p = resolveCopypath copyname filepath := by
        simpa using h
      refine ⟨by simp, hp, List.mem_cons_self _ _, fun _ => rfl,
        fun heq => absurd heq hcs⟩

lemma save_both_copy_run (primarySt copySt : GimpStatus) (image : Doc)
    (filepath copyname : String) (cw ch : Int) (p : String)
    (h : Ev.copySave p ∈ (save_both primarySt copySt image filepath copyname cw ch).trace) :
    (save_both primarySt copySt image filepath copyname cw ch).trace
      = [Ev.primarySave filepath, Ev.setFile filepath, Ev.cleanAll,
         Ev.attachParasite "export-copy" (encodeDesc copyname (pyPercent cw image.width) cw ch),
         Ev.duplicateImg, Ev.scaleImg cw ch, Ev.copySave (resolveCopypath copyname filepath)] ∧
    p = resolveCopypath copyname filepath ∧
    ("export-copy", encodeDesc copyname (pyPercent cw image.width) cw ch)
      ∈ (save_both primarySt copySt image filepath copyname cw ch).image.parasites ∧
    (copySt ≠ GimpStatus.success →
      (save_both primarySt copySt image filepath copyname cw ch).out
        = SBOut.ret (SBRet.statusCode copySt)) ∧
    (copySt = GimpStatus.success →
      ((save_both primarySt copySt image filepath copyname cw ch).out
          = SBOut.exn (PyErr.nameError "gimp") ∨
       (save_both primarySt copySt image filepath copyname cw ch).out
          = SBOut.exn PyErr.typeError) ∧
      ((∀ x ∈ image.parasites, settingsName x.1 = false) →
        (save_both primarySt copySt image filepath copyname cw ch).out
          = SBOut.exn (PyErr.nameError "gimp"))) := by
  by_cases hbr : is_xcf filepath = true ∨ image.nlayers < 2
  · by_cases hp : primarySt = GimpStatus.success
    · subst hp
      by_cases hskip :
          skipCopy { image with filePath := some filepath, clean := true } filepath copyname cw ch
      · have hres : save_both GimpStatus.success copySt image filepath copyname cw ch =
            ⟨SBOut.ret (SBRet.fullResult GimpStatus.success),
             { image with filePath := some filepath, clean := true },
             [Ev.primarySave filepath, Ev.setFile filepath, Ev.cleanAll]⟩ := by
          simp only [save_both, if_pos hbr, if_neg (not_not_intro rfl), if_pos hskip]
          rfl
        rw [hres] at h
        simp at h
      · have hcw : cw ≠ 0 := fun h0 => hskip (Or.inr (Or.inl h0))
        have hch : ch ≠ 0 := fun h0 => hskip (Or.inr (Or.inr (Or.inl h0)))
        have htr : (save_both GimpStatus.success copySt image filepath copyname cw ch).trace
            = [Ev.primarySave filepath, Ev.setFile filepath, Ev.cleanAll] ++
              (copyStep copySt { image with filePath := some filepath, clean := true }
                filepath copyname cw ch).trace := by
          simp only [save_both, if_pos hbr, if_neg (not_not_intro rfl), if_neg hskip]
          simp
        have himg : (save_both GimpStatus.success copySt image filepath copyname cw ch).image
            = (copyStep copySt { image with filePath := some filepath, clean := true }
                filepath copyname cw ch).image := by
          simp only [save_both, if_pos hbr, if_neg (not_not_intro rfl), if_neg hskip]
        have hout : (save_both GimpStatus.success copySt image filepath copyname cw ch).out
            = (copyStep copySt { image with filePath := some filepath, clean := true }
                filepath copyname cw ch).out := by
          simp only [save_both, if_pos hbr, if_neg (not_not_intro rfl), if_neg hskip]
        by_cases hW : image.width = 0
        · have hct : (copyStep copySt { image with filePath := some filepath, clean := true }
              filepath copyname cw ch).trace = [] := by
            simp only [copyStep, if_pos (And.intro hcw (And.intro hch hW))]
          rw [htr, hct] at h
          simp at h
        · have hmem : Ev.copySave p ∈ (copyStep copySt
              { image with filePath := some filepath, clean := true }
              filepath copyname cw ch).trace := by
            rw [htr] at h
            simpa using h
          obtain ⟨ht, hpv, hpar, ho1, ho2⟩ := copyStep_copySave_run copySt
            { image with filePath := some filepath, clean := true } filepath copyname cw ch p
            hcw hch hW hmem
          rw [htr, ht, himg, hout]
          exact ⟨rfl, hpv, hpar, ho1, ho2⟩
    · have hres : save_both primarySt copySt image filepath copyname cw ch =
          ⟨SBOut.ret (SBRet.statusCode primarySt), image, [Ev.primarySave filepath]⟩ := by
        simp only [save_both, if_pos hbr, if_pos hp]
      rw [hres] at h
      simp at h
  · have hres : save_both primarySt copySt image filepath copyname cw ch =
        ⟨SBOut.exn (PyErr.nameError "pdb"), image, []⟩ := by
      simp only [save_both, if_neg hbr]
    rw [hres] at h
    simp at h

/-! ### C4: the descriptor parasite precedes the copy save -/

/-- C4: in every execution that invokes the copy save, the encoded
"export-copy" parasite is attached to the primary document strictly
before that invocation (it is the fourth recorded host call and the copy
save comes only after it), and the descriptor is attached on the final
image on every outcome — in particular it is already persisted when the
copy save fails. -/
theorem parasite_attached_before_copy_save (primarySt copySt : GimpStatus) (image : Doc)
    (filepath copyname : String) (cw ch : Int) (p : String)
    (h : Ev.copySave p ∈ (save_both primarySt copySt image filepath copyname cw ch).trace) :
    (save_both primarySt copySt image filepath copyname cw ch).trace.take 4
      = [Ev.primarySave filepath, Ev.setFile filepath, Ev.cleanAll,
         Ev.attachParasite "export-copy" (encodeDesc copyname (pyPercent cw image.width) cw ch)] ∧
    Ev.copySave p ∈ (save_both primarySt copySt image filepath copyname cw ch).trace.drop 4 ∧
    ("export-copy", encodeDesc copyname (pyPercent cw image.width) cw ch)
      ∈ (save_both primarySt copySt image filepath copyname cw ch).image.parasites := by
  obtain ⟨ht, hpv, hpar, _, _⟩ :=
    save_both_copy_run primarySt copySt image filepath copyname cw ch p h
  refine ⟨by rw [ht]; rfl, ?_, hpar⟩
  rw [ht, hpv]
  simp

/-- Witness for C4 at a concrete input whose copy save fails: the copy
save is invoked, so the parasite attach occurs earlier in the trace and
survives on the final image. -/
theorem parasite_attached_before_copy_save_witness :
    (save_both GimpStatus.success GimpStatus.executionError
        ⟨Option.none, 800, 600, 1, false, []⟩ "/tmp/photo.xcf" "photo.jpg" 200 150).trace.take 4
      = [Ev.primarySave "/tmp/photo.xcf", Ev.setFile "/tmp/photo.xcf", Ev.cleanAll,
         Ev.attachParasite "export-copy"
           (encodeDesc "photo.jpg" (pyPercent 200 ((⟨Option.none, 800, 600, 1, false, []⟩ : Doc).width)) 200 150)] ∧
    Ev.copySave "/tmp/photo.jpg" ∈ (save_both GimpStatus.success GimpStatus.executionError
        ⟨Option.none, 800, 600, 1, false, []⟩ "/tmp/photo.xcf" "photo.jpg" 200 150).trace.drop 4 ∧
    ("export-copy",
      encodeDesc "photo.jpg" (pyPercent 200 ((⟨Option.none, 800, 600, 1, false, []⟩ : Doc).width)) 200 150)
      ∈ (save_both GimpStatus.success GimpStatus.executionError
          ⟨Option.none, 800, 600, 1, false, []⟩ "/tmp/photo.xcf" "photo.jpg" 200 150).image.parasites :=
  parasite_attached_before_copy_save GimpStatus.success GimpStatus.executionError
    ⟨Option.none, 800, 600, 1, false, []⟩ "/tmp/photo.xcf" "photo.jpg" 200 150 "/tmp/photo.jpg"
    (by decide)

/-! ### C5: duplicate lifetime -/

/-- C5 (code bug): the scaled duplicate is *not* released on every exit
path.  At a concrete input whose copy save fails, `save_both` creates the
duplicate and returns the failure status with no delete call in the trace
(line 254 returns before `gimp.delete`); at the same input with a
succeeding copy save, the delete statement itself raises `NameError`
because the GIMP-2 module name `gimp` is undefined (line 272), so the
duplicate is never released on that path either. -/
theorem duplicate_not_released :
    (Ev.duplicateImg ∈ (save_both GimpStatus.success GimpStatus.executionError
        ⟨Option.none, 800, 600, 1, false, []⟩ "/tmp/photo.xcf" "photo.jpg" 200 150).trace ∧
     Ev.deleteImg ∉ (save_both GimpStatus.success GimpStatus.executionError
        ⟨Option.none, 800, 600, 1, false, []⟩ "/tmp/photo.xcf" "photo.jpg" 200 150).trace ∧
     (save_both GimpStatus.success GimpStatus.executionError
        ⟨Option.none, 800, 600, 1, false, []⟩ "/tmp/photo.xcf" "photo.jpg" 200 150).out
       = SBOut.ret (SBRet.statusCode GimpStatus.executionError)) ∧
    (Ev.duplicateImg ∈ (save_both GimpStatus.success GimpStatus.success
        ⟨Option.none, 800, 600, 1, false, []⟩ "/tmp/photo.xcf" "photo.jpg" 200 150).trace ∧
     Ev.deleteImg ∉ (save_both GimpStatus.success GimpStatus.success
        ⟨Option.none, 800, 600, 1, false, []⟩ "/tmp/photo.xcf" "photo.jpg" 200 150).trace ∧
     (save_both GimpStatus.success GimpStatus.success
        ⟨Option.none, 800, 600, 1, false, []⟩ "/tmp/photo.xcf" "photo.jpg" 200 150).out
       = SBOut.exn (PyErr.nameError "gimp")) := by
  refine ⟨⟨?_, ?_, ?_⟩, ⟨?_, ?_, ?_⟩⟩ <;> decide

/-! ### C10: the shape of the value `save_both` exits with -/

/-- Counterexample to C10: at a concrete input whose copy save *succeeds*,
`save_both` does not return `None` — the `gimp.delete` call on line 272
raises `NameError` first, so `return None` on line 273 is unreachable. -/
theorem copy_success_returns_exception_not_none :
    (save_both GimpStatus.success GimpStatus.success
        ⟨Option.none, 800, 600, 1, false, []⟩ "/tmp/photo.xcf" "photo.jpg" 200 150).out
      = SBOut.exn (PyErr.nameError "gimp") ∧
    Ev.copySave "/tmp/photo.jpg" ∈ (save_both GimpStatus.success GimpStatus.success
        ⟨Option.none, 800, 600, 1, false, []⟩ "/tmp/photo.xcf" "photo.jpg" 200 150).trace := by
  refine ⟨?_, ?_⟩ <;> decide

/-- C10 (amended): `save_both`'s exit value is not uniform across its
paths — the skip path returns the host's full primary-save result value, a
failed primary or copy save returns the bare host status code (never a
string, despite the docstring), and the path whose copy save succeeds
never reaches `return None`: it raises an exception first — `TypeError`
at the invalid three-argument `attach_parasite` (line 267) when the copy
source carries a settings parasite, otherwise `NameError` at
`gimp.delete` (line 272) — so `None` is never returned at all. -/
theorem save_both_exit_shape (primarySt copySt : GimpStatus) (image : Doc)
    (filepath copyname : String) (cw ch : Int) :
    (save_both primarySt copySt image filepath copyname cw ch).out ≠ SBOut.ret SBRet.noneVal ∧
    ((is_xcf filepath = true ∨ image.nlayers < 2) → primarySt ≠ GimpStatus.success →
      (save_both primarySt copySt image filepath copyname cw ch).out
        = SBOut.ret (SBRet.statusCode primarySt)) ∧
    ((is_xcf filepath = true ∨ image.nlayers < 2) → primarySt = GimpStatus.success →
      skipCopy { image with filePath := some filepath, clean := true } filepath copyname cw ch →
      (save_both primarySt copySt image filepath copyname cw ch).out
        = SBOut.ret (SBRet.fullResult primarySt)) ∧
    (∀ p, Ev.copySave p ∈ (save_both primarySt copySt image filepath copyname cw ch).trace →
      copySt ≠ GimpStatus.success →
      (save_both primarySt copySt image filepath copyname cw ch).out
        = SBOut.ret (SBRet.statusCode copySt)) ∧
    (∀ p, Ev.copySave p ∈ (save_both primarySt copySt image filepath copyname cw ch).trace →
      copySt = GimpStatus.success →
      ((save_both primarySt copySt image filepath copyname cw ch).out
          = SBOut.exn (PyErr.nameError "gimp") ∨
       (save_both primarySt copySt image filepath copyname cw ch).out
          = SBOut.exn PyErr.typeError) ∧
      ((∀ x ∈ image.parasites, settingsName x.1 = false) →
        (save_both primarySt copySt image filepath copyname cw ch).out
          = SBOut.exn (PyErr.nameError "gimp"))) := by
  refine ⟨?_, ?_, ?_, ?_, ?_⟩
  · by_cases hbr : is_xcf filepath = true ∨ image.nlayers < 2
    · by_cases hp : primarySt = GimpStatus.success
      · subst hp
        by_cases hskip :
            skipCopy { image with filePath := some filepath, clean := true } filepath copyname cw ch
        · simp only [save_both, if_pos hbr, if_neg (not_not_intro rfl), if_pos hskip]
          simp
        · have hout : (save_both GimpStatus.success copySt image filepath copyname cw ch).out
              = (copyStep copySt { image with filePath := some filepath, clean := true }
                  filepath copyname cw ch).out := by
            simp only [save_both, if_pos hbr, if_neg (not_not_intro rfl), if_neg hskip]
          rw [hout]
          simp only [copyStep, finishCopy]
          split
          · simp
          · split
            · split
              · simp
              · split
                · simp
                · split <;> simp
            · split
              · simp
              · split
                · simp
                · split <;> simp
      · simp only [save_both, if_pos hbr, if_pos hp]
        simp
    · simp only [save_both, if_neg hbr]
      simp
  · intro hbr hp
    simp only [save_both, if_pos hbr, if_pos hp]
  · intro hbr hp hskip
    subst hp
    simp only [save_both, if_pos hbr, if_neg (not_not_intro rfl), if_pos hskip]
  · intro p hmem hcs
    exact (save_both_copy_run primarySt copySt image filepath copyname cw ch p hmem).2.2.2.1 hcs
  · intro p hmem hcs
    exact (save_both_copy_run primarySt copySt image filepath copyname cw ch p hmem).2.2.2.2 hcs

/-- Witness for C10 (amended) at concrete inputs: a failed primary save
exits with the bare status code, and a successful copy save exits with the
`NameError` raised at `gimp.delete`. -/
theorem save_both_exit_shape_witness :
    (save_both GimpStatus.executionError GimpStatus.success
        ⟨Option.none, 800, 600, 1, false, []⟩ "/tmp/photo.xcf" "photo.jpg" 200 150).out
      = SBOut.ret (SBRet.statusCode GimpStatus.executionError) ∧
    (save_both GimpStatus.success GimpStatus.success
        ⟨Option.none, 800, 600, 1, false, []⟩ "/tmp/photo.xcf" "photo.jpg" 200 150).out
      = SBOut.exn (PyErr.nameError "gimp") :=
  ⟨(save_both_exit_shape GimpStatus.executionError GimpStatus.success
      ⟨Option.none, 800, 600, 1, false, []⟩ "/tmp/photo.xcf" "photo.jpg" 200 150).2.1
      (Or.inr (by decide)) (by decide),
   ((save_both_exit_shape GimpStatus.success GimpStatus.success
      ⟨Option.none, 800, 600, 1, false, []⟩ "/tmp/photo.xcf" "photo.jpg" 200 150).2.2.2.2
      "/tmp/photo.jpg" (by decide) rfl).2
      (fun x hx => absurd hx (List.not_mem_nil x))⟩

/-! ### C6: the encode/decode round trip -/

/-- Following the spec's words (§3, §8 item 1): normalizing the
absent/zero fields of a descriptor — when either dimension is zero no
scaling is requested, percent is normalized to 100 and both dimensions to
0; otherwise the descriptor is unchanged. -/
def specNormalize (name : String) (percent : ℚ) (cw ch : Int) : ParaDesc :=
  if cw ≠ 0 ∧ ch ≠ 0 then ⟨PyV.str name, PyFloat.finite percent, cw, ch⟩
  else ⟨PyV.str name, PyFloat.finite 100, 0, 0⟩

lemma sentinelize_intToStrL (n : Int) :
    sentinelize (intToStrL n) = PyV.str ⟨intToStrL n⟩ := by
  rw [sentinelize, if_neg]
  rintro (hc | hc)
  · exact intToStrL_ne_None _ hc
  · exact intToStrL_ne_nil _ hc

lemma sentinelize_name {name : String} (hne : name ≠ "") (hns : name ≠ "None") :
    sentinelize name.data = PyV.str name := by
  rw [sentinelize, if_neg]
  rintro (hc | hc)
  · exact hns (String.ext hc)
  · exact hne (String.ext hc)

lemma decode_encode_nonzero (name : String) (percent : ℚ) (cw ch : Int) (W H : Int)
    (hnl : '\n' ∉ name.data) (hne : name ≠ "") (hns : name ≠ "None")
    (hcw : cw ≠ 0) (hch : ch ≠ 0) :
    init_from_parasite (some (encodeDesc name percent cw ch)) W H
      = ⟨PyV.str name, PyFloat.finite (((pyTruncQ percent : Int) : ℚ)), cw, ch⟩ := by
  have hdata : (encodeDesc name percent cw ch).data
      = name.data ++ '\n' ::
          (intToStrL (pyTruncQ percent) ++ '\n' :: (intToStrL cw ++ '\n' :: intToStrL ch)) := by
    rw [encodeDesc, if_pos (And.intro hcw hch)]
  have hsplit : splitOnChar '\n' (encodeDesc name percent cw ch).data
      = [name.data, intToStrL (pyTruncQ percent), intToStrL cw, intToStrL ch] := by
    rw [hdata, splitOnChar_append _ hnl, splitOnChar_append _ (nl_not_mem_intToStrL _),
      splitOnChar_append _ (nl_not_mem_intToStrL _), splitOnChar_not_mem (nl_not_mem_intToStrL _)]
  have hfA : pyFloatOfV (PyV.str ⟨intToStrL (pyTruncQ percent)⟩)
      = some (PyFloat.finite (((pyTruncQ percent : Int) : ℚ))) := pyFloatParseL_intToStrL _
  have hiB : pyIntOfV (PyV.str ⟨intToStrL cw⟩) = some cw := pyIntParseL_intToStrL _
  have hiC : pyIntOfV (PyV.str ⟨intToStrL ch⟩) = some ch := pyIntParseL_intToStrL _
  simp only [init_from_parasite, parseParaVals, hsplit, List.map_cons, List.map_nil,
    sentinelize_name hne hns, sentinelize_intToStrL, List.getElem?_cons_zero,
    List.getElem?_cons_succ, hfA, hiB, hiC]

lemma pyFloat_100_0 : pyFloatParseL "100.0".data = some (PyFloat.finite ((100 : ℚ))) := by
  have h : pyFloatParseL "100.0".data
      = some (PyFloat.finite (((100 : Nat) : ℚ) + ((0 : Nat) : ℚ) / (10 : ℚ) ^ (1 : Nat))) := rfl
  have h2 : ((100 : Nat) : ℚ) + ((0 : Nat) : ℚ) / (10 : ℚ) ^ (1 : Nat) = 100 := by norm_num
  rw [h, h2]

lemma decode_encode_zero (name : String) (percent : ℚ) (cw ch : Int) (W H : Int)
    (hnl : '\n' ∉ name.data) (hne : name ≠ "") (hns : name ≠ "None")
    (hz : ¬ (cw ≠ 0 ∧ ch ≠ 0)) :
    init_from_parasite (some (encodeDesc name percent cw ch)) W H
      = ⟨PyV.str name, PyFloat.finite 100, 0, 0⟩ := by
  have hdata : (encodeDesc name percent cw ch).data
      = name.data ++ '\n' :: "100.0\n0\n0".data := by
    rw [encodeDesc, if_neg hz]
  have hsplit : splitOnChar '\n' (encodeDesc name percent cw ch).data
      = [name.data, "100.0".data, "0".data, "0".data] := by
    rw [hdata, splitOnChar_append _ hnl]
    rw [show splitOnChar '\n' "100.0\n0\n0".data = ["100.0".data, "0".data, "0".data] from by decide]
  have hfA : pyFloatOfV (PyV.str "100.0") = some (PyFloat.finite ((100 : ℚ))) := pyFloat_100_0
  have hiB : pyIntOfV (PyV.str "0") = some 0 := by decide
  simp only [init_from_parasite, parseParaVals, hsplit, List.map_cons, List.map_nil,
    sentinelize_name hne hns,
    show sentinelize "100.0".data = PyV.str "100.0" from by decide,
    show sentinelize "0".data = PyV.str "0" from by decide,
    List.getElem?_cons_zero, List.getElem?_cons_succ, hfA, hiB]

/-- Counterexample to C6: the descriptor
`{name := "copy.jpg", percent := 37.5, width := 150, height := 100}` has
non-negative fields and needs no zero-normalization, yet
`decode(encode(d))` yields percent `37`, not `37.5` — `'%d'` truncates the
float percent when encoding, so the percent field does *not* survive the
round trip. -/
theorem roundtrip_drops_fractional_percent :
    init_from_parasite (some (encodeDesc "copy.jpg" ((75 : ℚ) / 2) 150 100)) 800 600
      = ⟨PyV.str "copy.jpg", PyFloat.finite 37, 150, 100⟩ ∧
    init_from_parasite (some (encodeDesc "copy.jpg" ((75 : ℚ) / 2) 150 100)) 800 600
      ≠ specNormalize "copy.jpg" ((75 : ℚ) / 2) 150 100 := by
  have htr : pyTruncQ ((75 : ℚ) / 2) = 37 := by
    rw [pyTruncQ_eq_floor (by norm_num), Int.floor_eq_iff]
    norm_num
  have hdec : init_from_parasite (some (encodeDesc "copy.jpg" ((75 : ℚ) / 2) 150 100)) 800 600
      = ⟨PyV.str "copy.jpg", PyFloat.finite 37, 150, 100⟩ := by
    rw [decode_encode_nonzero "copy.jpg" ((75 : ℚ) / 2) 150 100 800 600 (by decide) (by decide)
      (by decide) (by decide) (by decide), htr]
    norm_num
  refine ⟨hdec, ?_⟩
  rw [hdec, specNormalize, if_pos (by decide : (150 : Int) ≠ 0 ∧ (100 : Int) ≠ 0)]
  intro hcon
  have hpc := congrArg ParaDesc.export_percent hcon
  simp only [PyFloat.finite.injEq] at hpc
  norm_num at hpc

/-- C6 (amended): for a descriptor with a newline-free, non-empty,
non-sentinel name and non-negative percent, `decode(encode(d))` returns
`d` with absent/zero dimensions normalized to `(100, 0, 0)` and with
`percent` replaced by its integer part — the `%d` encoding truncates it —
so `d` is recovered exactly precisely when its percent is integral. -/
theorem roundtrip_truncates_percent (name : String) (percent : ℚ) (cw ch : Int) (W H : Int)
    (hnl : '\n' ∉ name.data) (hne : name ≠ "") (hns : name ≠ "None") (hp : 0 ≤ percent) :
    init_from_parasite (some (encodeDesc name percent cw ch)) W H
      = specNormalize name ((⌊percent⌋ : ℚ)) cw ch := by
  by_cases hz : cw ≠ 0 ∧ ch ≠ 0
  · rw [decode_encode_nonzero name percent cw ch W H hnl hne hns hz.1 hz.2,
      specNormalize, if_pos hz, pyTruncQ_eq_floor hp]
  · rw [decode_encode_zero name percent cw ch W H hnl hne hns hz, specNormalize, if_neg hz]

/-- Witness for C6 (amended) at a concrete integral-percent descriptor. -/
theorem roundtrip_truncates_percent_witness :
    init_from_parasite (some (encodeDesc "photo.jpg" ((25 : ℚ)) 200 150)) 800 600
      = specNormalize "photo.jpg" ((⌊(25 : ℚ)⌋ : ℚ)) 200 150 :=
  roundtrip_truncates_percent "photo.jpg" 25 200 150 800 600 (by decide) (by decide) (by decide)
    (by norm_num)

/-! ### C7: decoder fallback behaviour -/

end Saver
